import Mathlib

/-!
# Amazon Locker System — shallow embedding and verification

Shallow embedding of `src/Amazon Locker System/Cpp/AmazonLocker.cpp`.

The C++ `LockerService` holds three FIFO deques of free locker identifiers
(index 0 = SMALL, 1 = MEDIUM, 2 = LARGE), a hash map of active tickets keyed
by retrieval code, and a mutex (serialisation is the concurrency model; the
sequential semantics is embedded here).  The injectable `Clock` is embedded by
passing the current instant `now : Int` to the operations that read it.
Exceptions become `Except LockerError`; each mutating operation returns its
result together with the post-state.  The `cout` emitted by `cleanup` for each
reclaimed locker is embedded as the returned list of reclaimed locker ids.
-/

namespace AmazonLocker

/-- The C++ `enum class Size`. -/
inductive Size where
  | SMALL
  | MEDIUM
  | LARGE
deriving DecidableEq, Repr

/-- The C++ `struct Ticket { lockerId; code; creationTime }`. -/
structure Ticket where
  lockerId : String
  code : String
  creationTime : Int
deriving DecidableEq, Repr

/-- The two exception kinds thrown by the service, as structured errors:
`std::runtime_error("No locker available for size " + sizeToString(s))` and
`std::invalid_argument("Invalid or expired code: " + code)`. -/
inductive LockerError where
  | NoCapacity (requestedSize : Size)
  | InvalidCode (code : String)
deriving DecidableEq, Repr

/-- Embeds `LockerService::sizeToInt`. -/
def sizeToInt (s : Size) : Nat :=
  match s with
  | .SMALL => 0
  | .MEDIUM => 1
  | .LARGE => 2

/-- Embeds `LockerService::sizeToString`. -/
def sizeToString (s : Size) : String :=
  match s with
  | .SMALL => "SMALL"
  | .MEDIUM => "MEDIUM"
  | .LARGE => "LARGE"

/-- The exception message attached to each error. -/
def LockerError.message : LockerError → String
  | .NoCapacity s => "No locker available for size " ++ sizeToString s
  | .InvalidCode code => "Invalid or expired code: " ++ code

/-- The mutable state of `LockerService`: the three deques `queues[0..2]`
(front of the deque = head of the list, `push_back` = append at the tail) and
the `activeTickets` map, embedded as an association list keyed by code. -/
structure LockerService where
  queues0 : List String
  queues1 : List String
  queues2 : List String
  activeTickets : List (String × Ticket)
deriving DecidableEq, Repr

/-- Embeds `LockerService::findBestFit`: cascading check from the requested size
upward; pops the front of the first non-empty candidate queue.  The C++
returns `""` on failure; `none` embeds that sentinel (all real locker ids are
non-empty). -/
def findBestFit (st : LockerService) (requestedSize : Size) :
    Option String × LockerService :=
  match requestedSize with
  | .SMALL =>
    match st.queues0 with
    | s :: rest => (some s, { st with queues0 := rest })
    | [] =>
      match st.queues1 with
      | s :: rest => (some s, { st with queues1 := rest })
      | [] =>
        match st.queues2 with
        | s :: rest => (some s, { st with queues2 := rest })
        | [] => (none, st)
  | .MEDIUM =>
    match st.queues1 with
    | s :: rest => (some s, { st with queues1 := rest })
    | [] =>
      match st.queues2 with
      | s :: rest => (some s, { st with queues2 := rest })
      | [] => (none, st)
  | .LARGE =>
    match st.queues2 with
    | s :: rest => (some s, { st with queues2 := rest })
    | [] => (none, st)

/-- Embeds `LockerService::returnLocker`: dispatch on the first character of the
locker id and `push_back` onto the matching queue (no branch matches ⇒ no
change, as in the C++ if/else chain). -/
def returnLocker (st : LockerService) (lockerId : String) : LockerService :=
  if lockerId.front = 'S' then { st with queues0 := st.queues0 ++ [lockerId] }
  else if lockerId.front = 'M' then { st with queues1 := st.queues1 ++ [lockerId] }
  else if lockerId.front = 'L' then { st with queues2 := st.queues2 ++ [lockerId] }
  else st

/-- Embeds `activeTickets[code] = ticket`, map subscript assignment: it
replaces the entry if the key is present and inserts otherwise. -/
def insertTicket (m : List (String × Ticket)) (code : String) (t : Ticket) :
    List (String × Ticket) :=
  if m.any (fun p => p.1 == code) then
    m.map (fun p => if p.1 == code then (code, t) else p)
  else
    (code, t) :: m

/-- The constructor `LockerService(clk)`: seed 10 lockers per class,
`"S-0".."S-9"`, `"M-0".."M-9"`, `"L-0".."L-9"`. -/
def initService : LockerService :=
  { queues0 := (List.range 10).map (fun i => "S-" ++ toString i)
    queues1 := (List.range 10).map (fun i => "M-" ++ toString i)
    queues2 := (List.range 10).map (fun i => "L-" ++ toString i)
    activeTickets := [] }

/-- Embeds `LockerService::deposit`.  `now` is `clock->currentTimeMillis()`; the code
is `bestLockerId + "-" + std::to_string(now % 10000)` (C++ `%` truncates
toward zero, i.e. `Int.tmod`).  On the throwing path the state is returned
unchanged. -/
def deposit (st : LockerService) (requestedSize : Size) (now : Int) :
    Except LockerError Ticket × LockerService :=
  match findBestFit st requestedSize with
  | (none, st') => (.error (.NoCapacity requestedSize), st')
  | (some bestLockerId, st') =>
    let code := bestLockerId ++ "-" ++ toString (Int.tmod now 10000)
    let ticket : Ticket := { lockerId := bestLockerId, code := code, creationTime := now }
    (.ok ticket, { st' with activeTickets := insertTicket st'.activeTickets code ticket })

/-- Embeds `LockerService::pickup`: look the code up, erase the found entry, return
the locker to its queue, and return the confirmation string.  On the throwing
path the state is unchanged. -/
def pickup (st : LockerService) (code : String) :
    Except LockerError String × LockerService :=
  match st.activeTickets.find? (fun p => p.1 == code) with
  | none => (.error (.InvalidCode code), st)
  | some p =>
    let ticket := p.2
    let st' := { st with activeTickets := st.activeTickets.eraseP (fun q => q.1 == code) }
    let st'' := returnLocker st' ticket.lockerId
    (.ok ("Locker " ++ ticket.lockerId ++ " opened. Package retrieved."), st'')

/-- The retention threshold `3LL * 24 * 60 * 60 * 1000`. -/
def threeDaysInMillis : Int := 3 * 24 * 60 * 60 * 1000

/-- One ticket-table entry is expired when `now - creationTime` strictly
exceeds the retention threshold (the `if` in `LockerService::cleanup`). -/
def expired (now : Int) (p : String × Ticket) : Bool :=
  now - p.2.creationTime > threeDaysInMillis

/-- The erase-while-iterating loop of `LockerService::cleanup`: walk the
entries; an expired entry's locker is returned to its queue, its id is emitted
(the `cout`), and the entry is dropped; others are kept.  Returns the emitted
ids in order, the surviving entries in order, and the state with the queue
updates applied. -/
def cleanupLoop (now : Int) :
    List (String × Ticket) → LockerService →
      List String × List (String × Ticket) × LockerService
  | [], st => ([], [], st)
  | p :: rest, st =>
    if expired now p then
      let st' := returnLocker st p.2.lockerId
      let r := cleanupLoop now rest st'
      (p.2.lockerId :: r.1, r.2.1, r.2.2)
    else
      let r := cleanupLoop now rest st
      (r.1, p :: r.2.1, r.2.2)

/-- Embeds `LockerService::cleanup`.  `now` is `clock->currentTimeMillis()`.  Returns
the list of reclaimed locker ids (the emitted observability events, in
iteration order) and the post-state. -/
def cleanup (st : LockerService) (now : Int) : List String × LockerService :=
  let r := cleanupLoop now st.activeTickets st
  (r.1, { r.2.2 with activeTickets := r.2.1 })

/-- The fixed initial inventory seeded by the constructor, as a list. -/
def inventory : List String :=
  (List.range 10).map (fun i => "S-" ++ toString i)
    ++ (List.range 10).map (fun i => "M-" ++ toString i)
    ++ (List.range 10).map (fun i => "L-" ++ toString i)

/-- The locker ids referenced by the active tickets, in table order. -/
def ticketLockers (st : LockerService) : List String :=
  st.activeTickets.map (fun p => p.2.lockerId)

/-- The multiset of free lockers across the three pools. -/
def queuesM (st : LockerService) : Multiset String :=
  ↑st.queues0 + ↑st.queues1 + ↑st.queues2

/-- The multiset of lockers known to the system: free in a pool, or
referenced by an active ticket. -/
def lockerMultiset (st : LockerService) : Multiset String :=
  queuesM st + ↑(ticketLockers st)

/-- Well-formedness of one ticket-table entry: the key is the ticket's code,
and the code has the `lockerId ++ "-" ++ suffix` shape minted by `deposit`. -/
def WfTicket (p : String × Ticket) : Prop :=
  p.1 = p.2.code ∧ ∃ n : Int, p.2.code = p.2.lockerId ++ "-" ++ toString n

/-- The inductive state invariant: conservation of the seeded inventory,
well-formed ticket entries, and class-homogeneous pools. -/
def Inv (st : LockerService) : Prop :=
  lockerMultiset st = ↑inventory
    ∧ (∀ p ∈ st.activeTickets, WfTicket p)
    ∧ (∀ a ∈ st.queues0, a.front = 'S')
    ∧ (∀ a ∈ st.queues1, a.front = 'M')
    ∧ (∀ a ∈ st.queues2, a.front = 'L')

/-- One public mutating call of the service, at an arbitrary instant and with
an arbitrary argument, whether it succeeds or fails. -/
inductive Step : LockerService → LockerService → Prop where
  | deposit (st : LockerService) (s : Size) (now : Int) :
      Step st (deposit st s now).2
  | pickup (st : LockerService) (code : String) :
      Step st (pickup st code).2
  | cleanup (st : LockerService) (now : Int) :
      Step st (cleanup st now).2

/-- States reachable from the freshly constructed service by any sequence of
`deposit` / `pickup` / `cleanup` calls. -/
def Reachable (st : LockerService) : Prop :=
  Relation.ReflTransGen Step initService st

/-! ## Basic facts about the inventory and the helper operations -/

lemma inventory_nodup : inventory.Nodup := by decide

lemma inventory_data_length : ∀ a ∈ inventory, a.data.length = 3 := by decide

lemma inventory_front :
    ∀ a ∈ inventory, a.front = 'S' ∨ a.front = 'M' ∨ a.front = 'L' := by decide

lemma coe_append_singleton (l : List String) (a : String) :
    ((l ++ [a] : List String) : Multiset String) = ↑l + {a} := by
  rw [← Multiset.coe_singleton, Multiset.coe_add]

lemma returnLocker_activeTickets (st : LockerService) (a : String) :
    (returnLocker st a).activeTickets = st.activeTickets := by
  by_cases h1 : a.front = 'S' <;> by_cases h2 : a.front = 'M' <;>
    by_cases h3 : a.front = 'L' <;> simp [returnLocker, h1, h2, h3]

lemma returnLocker_of_front_S (st : LockerService) (a : String) (h : a.front = 'S') :
    returnLocker st a = { st with queues0 := st.queues0 ++ [a] } := by
  simp [returnLocker, h]

lemma returnLocker_of_front_M (st : LockerService) (a : String) (h : a.front = 'M') :
    returnLocker st a = { st with queues1 := st.queues1 ++ [a] } := by
  simp [returnLocker, h]

lemma returnLocker_of_front_L (st : LockerService) (a : String) (h : a.front = 'L') :
    returnLocker st a = { st with queues2 := st.queues2 ++ [a] } := by
  simp [returnLocker, h]

lemma returnLocker_queuesM (st : LockerService) (a : String)
    (h : a.front = 'S' ∨ a.front = 'M' ∨ a.front = 'L') :
    queuesM (returnLocker st a) = queuesM st + {a} := by
  rcases h with h | h | h
  · rw [returnLocker_of_front_S st a h]
    simp only [queuesM, coe_append_singleton]
    abel
  · rw [returnLocker_of_front_M st a h]
    simp only [queuesM, coe_append_singleton]
    abel
  · rw [returnLocker_of_front_L st a h]
    simp only [queuesM, coe_append_singleton]
    abel

lemma findBestFit_none_state {st st' : LockerService} {s : Size}
    (h : findBestFit st s = (none, st')) : st' = st := by
  cases s <;>
    rcases hq0 : st.queues0 with _ | ⟨x0, r0⟩ <;>
    rcases hq1 : st.queues1 with _ | ⟨x1, r1⟩ <;>
    rcases hq2 : st.queues2 with _ | ⟨x2, r2⟩ <;>
    simp_all [findBestFit]

/-- Successful `findBestFit` pops the head of exactly one queue and leaves
every other field unchanged. -/
lemma findBestFit_some_cases {st st' : LockerService} {s : Size} {a : String}
    (h : findBestFit st s = (some a, st')) :
    (st.queues0 = a :: st'.queues0 ∧ st'.queues1 = st.queues1
        ∧ st'.queues2 = st.queues2 ∧ st'.activeTickets = st.activeTickets)
      ∨ (st.queues1 = a :: st'.queues1 ∧ st'.queues0 = st.queues0
        ∧ st'.queues2 = st.queues2 ∧ st'.activeTickets = st.activeTickets)
      ∨ (st.queues2 = a :: st'.queues2 ∧ st'.queues0 = st.queues0
        ∧ st'.queues1 = st.queues1 ∧ st'.activeTickets = st.activeTickets) := by
  cases s <;>
    rcases hq0 : st.queues0 with _ | ⟨x0, r0⟩ <;>
    rcases hq1 : st.queues1 with _ | ⟨x1, r1⟩ <;>
    rcases hq2 : st.queues2 with _ | ⟨x2, r2⟩ <;>
    simp_all [findBestFit]
  all_goals obtain ⟨rfl, rfl⟩ := h
  all_goals simp_all

lemma insertTicket_of_fresh {m : List (String × Ticket)} {code : String}
    {t : Ticket} (h : ∀ p ∈ m, p.1 ≠ code) :
    insertTicket m code t = (code, t) :: m := by
  have hnone : ¬ (m.any (fun p => p.1 == code) = true) := by
    intro hc
    rw [List.any_eq_true] at hc
    obtain ⟨p, hp, hpc⟩ := hc
    exact h p hp (beq_iff_eq.mp hpc)
  simp [insertTicket, hnone]

/-- Codes built as `lockerId ++ "-" ++ suffix` agree only when the locker ids
agree, provided the locker ids have equal length. -/
lemma code_eq_locker_eq {a b x y : String} (hlen : a.data.length = b.data.length)
    (h : a ++ "-" ++ x = b ++ "-" ++ y) : a = b := by
  have hd := congrArg String.data h
  simp only [String.data_append] at hd
  have h1 : a.data ++ "-".data = b.data ++ "-".data :=
    List.append_inj_left hd (by simp [hlen])
  have h2 : a.data = b.data :=
    List.append_inj_left h1 hlen
  exact String.ext h2

lemma inv_init : Inv initService := by
  refine ⟨?_, fun p hp => absurd hp (by simp [initService]), by decide, by decide, by decide⟩
  simp only [lockerMultiset, queuesM, ticketLockers, initService, inventory,
    List.map_nil, Multiset.coe_nil, add_zero, Multiset.coe_add]

/-! ## Membership and freshness facts derived from the invariant -/

lemma mem_inventory_of_queues {st : LockerService} (hInv : Inv st) {a : String}
    (hq : a ∈ st.queues0 ∨ a ∈ st.queues1 ∨ a ∈ st.queues2) : a ∈ inventory := by
  have hm : a ∈ lockerMultiset st := by
    rw [lockerMultiset, queuesM]
    simp only [Multiset.mem_add, Multiset.mem_coe]
    tauto
  rw [hInv.1] at hm
  exact Multiset.mem_coe.mp hm

lemma mem_inventory_of_ticket {st : LockerService} (hInv : Inv st)
    {p : String × Ticket} (hp : p ∈ st.activeTickets) : p.2.lockerId ∈ inventory := by
  have hmt : p.2.lockerId ∈ ticketLockers st :=
    List.mem_map_of_mem (fun q => q.2.lockerId) hp
  have hm : p.2.lockerId ∈ lockerMultiset st := by
    rw [lockerMultiset]
    simp only [Multiset.mem_add, Multiset.mem_coe]
    tauto
  rw [hInv.1] at hm
  exact Multiset.mem_coe.mp hm

/-- Under the invariant, a locker free in some pool is never also referenced
by an active ticket: the inventory multiset has no duplicates. -/
lemma not_queue_and_ticket {st : LockerService} (hInv : Inv st) {a : String}
    (hq : a ∈ st.queues0 ∨ a ∈ st.queues1 ∨ a ∈ st.queues2)
    (ht : a ∈ ticketLockers st) : False := by
  have hq1 : 1 ≤ Multiset.count a (↑st.queues0 : Multiset String)
      + Multiset.count a (↑st.queues1 : Multiset String)
      + Multiset.count a (↑st.queues2 : Multiset String) := by
    rcases hq with h | h | h <;>
      have := Multiset.one_le_count_iff_mem.mpr (Multiset.mem_coe.mpr h) <;>
      omega
  have ht1 : 1 ≤ Multiset.count a (↑(ticketLockers st) : Multiset String) :=
    Multiset.one_le_count_iff_mem.mpr (Multiset.mem_coe.mpr ht)
  have htot : Multiset.count a (lockerMultiset st) ≤ 1 := by
    rw [hInv.1]
    exact Multiset.nodup_iff_count_le_one.mp
      (Multiset.coe_nodup.mpr inventory_nodup) a
  rw [lockerMultiset, queuesM] at htot
  simp only [Multiset.count_add] at htot
  omega

/-- A freshly minted code differs from every key in the active table, because
the allocated locker is not ticket-owned and inventory ids share length 3. -/
lemma code_fresh {st : LockerService} (hInv : Inv st) {a : String}
    (ha : a ∈ inventory) (hnot : a ∉ ticketLockers st) (n : Int) :
    ∀ p ∈ st.activeTickets, p.1 ≠ a ++ "-" ++ toString n := by
  intro p hp heq
  obtain ⟨hkey, m, hcode⟩ := hInv.2.1 p hp
  rw [hkey, hcode] at heq
  have hlock : p.2.lockerId ∈ inventory := mem_inventory_of_ticket hInv hp
  have hlen : p.2.lockerId.data.length = a.data.length := by
    rw [inventory_data_length _ hlock, inventory_data_length _ ha]
  have hla : p.2.lockerId = a := code_eq_locker_eq hlen heq
  exact hnot (hla ▸ List.mem_map_of_mem (fun q => q.2.lockerId) hp)

/-- The consolidated consequences of a successful `findBestFit`. -/
lemma findBestFit_some_spec {st st' : LockerService} {s : Size} {a : String}
    (h : findBestFit st s = (some a, st')) :
    st'.activeTickets = st.activeTickets
      ∧ queuesM st' + {a} = queuesM st
      ∧ (a ∈ st.queues0 ∨ a ∈ st.queues1 ∨ a ∈ st.queues2)
      ∧ (∀ x ∈ st'.queues0, x ∈ st.queues0)
      ∧ (∀ x ∈ st'.queues1, x ∈ st.queues1)
      ∧ (∀ x ∈ st'.queues2, x ∈ st.queues2) := by
  rcases findBestFit_some_cases h with ⟨h0, h1, h2, ht⟩ | ⟨h1, h0, h2, ht⟩ | ⟨h2, h0, h1, ht⟩
  · refine ⟨ht, ?_, Or.inl (by rw [h0]; exact List.mem_cons_self a _), ?_, ?_, ?_⟩
    · rw [queuesM, queuesM, h0, h1, h2, ← Multiset.cons_coe, ← Multiset.singleton_add]
      abel
    · intro x hx; rw [h0]; exact List.mem_cons_of_mem _ hx
    · intro x hx; rw [h1] at hx; exact hx
    · intro x hx; rw [h2] at hx; exact hx
  · refine ⟨ht, ?_, Or.inr (Or.inl (by rw [h1]; exact List.mem_cons_self a _)), ?_, ?_, ?_⟩
    · rw [queuesM, queuesM, h1, h0, h2, ← Multiset.cons_coe, ← Multiset.singleton_add]
      abel
    · intro x hx; rw [h0] at hx; exact hx
    · intro x hx; rw [h1]; exact List.mem_cons_of_mem _ hx
    · intro x hx; rw [h2] at hx; exact hx
  · refine ⟨ht, ?_, Or.inr (Or.inr (by rw [h2]; exact List.mem_cons_self a _)), ?_, ?_, ?_⟩
    · rw [queuesM, queuesM, h2, h0, h1, ← Multiset.cons_coe, ← Multiset.singleton_add]
      abel
    · intro x hx; rw [h0] at hx; exact hx
    · intro x hx; rw [h1] at hx; exact hx
    · intro x hx; rw [h2]; exact List.mem_cons_of_mem _ hx

lemma queuesM_set_tickets (st : LockerService) (m : List (String × Ticket)) :
    queuesM { st with activeTickets := m } = queuesM st := rfl

lemma ticketLockers_set_tickets (st : LockerService) (m : List (String × Ticket)) :
    ticketLockers { st with activeTickets := m } = m.map (fun p => p.2.lockerId) := rfl

lemma lockerMultiset_set_cons (st : LockerService) (m : List (String × Ticket))
    (c : String) (t : Ticket) :
    lockerMultiset { st with activeTickets := (c, t) :: m } =
      queuesM st + ({t.lockerId} + ↑(m.map (fun p => p.2.lockerId))) := by
  rw [lockerMultiset, queuesM_set_tickets, ticketLockers_set_tickets, List.map_cons,
    ← Multiset.cons_coe, ← Multiset.singleton_add]

/-! ## Preservation of the invariant by each operation -/

lemma inv_deposit (st : LockerService) (s : Size) (now : Int) (hInv : Inv st) :
    Inv (deposit st s now).2 := by
  rcases hfb : findBestFit st s with ⟨ores, st'⟩
  cases ores with
  | none =>
    have hst : st' = st := findBestFit_none_state hfb
    simp only [deposit, hfb, hst]
    exact hInv
  | some a =>
    obtain ⟨ht, hqm, hmem, hs0, hs1, hs2⟩ := findBestFit_some_spec hfb
    have haInv : a ∈ inventory := mem_inventory_of_queues hInv hmem
    have hnotticket : a ∉ ticketLockers st := fun hmt =>
      not_queue_and_ticket hInv hmem hmt
    have hfresh :
        ∀ p ∈ st.activeTickets, p.1 ≠ a ++ "-" ++ toString (Int.tmod now 10000) :=
      code_fresh hInv haInv hnotticket _
    simp only [deposit, hfb]
    rw [ht, insertTicket_of_fresh hfresh]
    refine ⟨?_, ?_, ?_, ?_, ?_⟩
    · rw [lockerMultiset_set_cons]
      show queuesM st' + ({a} + ↑(ticketLockers st)) = ↑inventory
      rw [← add_assoc, hqm]
      exact hInv.1
    · intro p hp
      rcases List.mem_cons.mp hp with rfl | hp'
      · exact ⟨rfl, Int.tmod now 10000, rfl⟩
      · exact hInv.2.1 p hp'
    · intro x hx
      exact hInv.2.2.1 x (hs0 x hx)
    · intro x hx
      exact hInv.2.2.2.1 x (hs1 x hx)
    · intro x hx
      exact hInv.2.2.2.2 x (hs2 x hx)

lemma ticketLockers_returnLocker (st : LockerService) (a : String) :
    ticketLockers (returnLocker st a) = ticketLockers st := by
  rw [ticketLockers, returnLocker_activeTickets]
  rfl

/-- A `find?` hit splits the list around its first hit, and
`eraseP` with the same predicate removes exactly that hit. -/
lemma find?_eraseP_decomp {α : Type} (pred : α → Bool) {l : List α} {a : α}
    (h : l.find? pred = some a) :
    ∃ l₁ l₂, l = l₁ ++ a :: l₂ ∧ l.eraseP pred = l₁ ++ l₂ := by
  induction l with
  | nil => simp at h
  | cons x xs ih =>
    by_cases hx : pred x
    · rw [List.find?_cons_of_pos _ hx] at h
      injection h with h
      subst h
      exact ⟨[], xs, rfl, List.eraseP_cons_of_pos hx⟩
    · rw [List.find?_cons_of_neg _ hx] at h
      obtain ⟨l₁, l₂, he, hr⟩ := ih h
      exact ⟨x :: l₁, l₂, by rw [List.cons_append, ← he],
        by rw [List.eraseP_cons_of_neg hx, hr, List.cons_append]⟩

lemma coe_middle {α : Type} (m₁ m₂ : List α) (a : α) :
    (↑(m₁ ++ a :: m₂) : Multiset α) = ↑(m₁ ++ m₂) + {a} := by
  rw [← Multiset.coe_add, ← Multiset.coe_add, ← Multiset.cons_coe,
    ← Multiset.singleton_add]
  abel

/-- Returning a locker of a legal front character preserves the per-pool
class-homogeneity clauses. -/
lemma returnLocker_classes {st : LockerService}
    (h0 : ∀ x ∈ st.queues0, x.front = 'S')
    (h1 : ∀ x ∈ st.queues1, x.front = 'M')
    (h2 : ∀ x ∈ st.queues2, x.front = 'L')
    {a : String} (hfront : a.front = 'S' ∨ a.front = 'M' ∨ a.front = 'L') :
    (∀ x ∈ (returnLocker st a).queues0, x.front = 'S')
      ∧ (∀ x ∈ (returnLocker st a).queues1, x.front = 'M')
      ∧ (∀ x ∈ (returnLocker st a).queues2, x.front = 'L') := by
  rcases hfront with h | h | h
  · rw [returnLocker_of_front_S _ _ h]
    refine ⟨?_, h1, h2⟩
    intro x hx
    rcases List.mem_append.mp hx with hx | hx
    · exact h0 x hx
    · rw [List.mem_singleton.mp hx]; exact h
  · rw [returnLocker_of_front_M _ _ h]
    refine ⟨h0, ?_, h2⟩
    intro x hx
    rcases List.mem_append.mp hx with hx | hx
    · exact h1 x hx
    · rw [List.mem_singleton.mp hx]; exact h
  · rw [returnLocker_of_front_L _ _ h]
    refine ⟨h0, h1, ?_⟩
    intro x hx
    rcases List.mem_append.mp hx with hx | hx
    · exact h2 x hx
    · rw [List.mem_singleton.mp hx]; exact h

lemma inv_pickup (st : LockerService) (code : String) (hInv : Inv st) :
    Inv (pickup st code).2 := by
  rcases hf : st.activeTickets.find? (fun p => p.1 == code) with _ | p
  · simp only [pickup, hf]
    exact hInv
  · obtain ⟨l₁, l₂, hdec, herase⟩ := find?_eraseP_decomp _ hf
    have hp_mem : p ∈ st.activeTickets := List.mem_of_find?_eq_some hf
    have hlock : p.2.lockerId ∈ inventory := mem_inventory_of_ticket hInv hp_mem
    have hfront := inventory_front _ hlock
    simp only [pickup, hf]
    obtain ⟨hc0, hc1, hc2⟩ :=
      @returnLocker_classes { st with
          activeTickets := st.activeTickets.eraseP (fun q => q.1 == code) }
        hInv.2.2.1 hInv.2.2.2.1 hInv.2.2.2.2 p.2.lockerId hfront
    refine ⟨?_, ?_, hc0, hc1, hc2⟩
    · rw [lockerMultiset, returnLocker_queuesM _ _ hfront, ticketLockers_returnLocker,
        queuesM_set_tickets, ticketLockers_set_tickets, herase, List.map_append]
      have horig : queuesM st
          + ↑(l₁.map (fun q => q.2.lockerId) ++ p.2.lockerId
              :: l₂.map (fun q => q.2.lockerId)) = ↑inventory := by
        have h := hInv.1
        rw [lockerMultiset, ticketLockers, hdec, List.map_append, List.map_cons] at h
        exact h
      rw [coe_middle] at horig
      rw [← horig]
      abel
    · intro q hq
      rw [returnLocker_activeTickets] at hq
      exact hInv.2.1 q (List.eraseP_subset _ hq)

/-! ## Characterization of the cleanup loop -/

lemma returnLocker_queues0 (st : LockerService) (a : String) :
    (returnLocker st a).queues0 =
      if a.front == 'S' then st.queues0 ++ [a] else st.queues0 := by
  by_cases h1 : a.front = 'S' <;> by_cases h2 : a.front = 'M' <;>
    by_cases h3 : a.front = 'L' <;> simp [returnLocker, h1, h2, h3]

lemma returnLocker_queues1 (st : LockerService) (a : String) :
    (returnLocker st a).queues1 =
      if a.front == 'M' then st.queues1 ++ [a] else st.queues1 := by
  by_cases h1 : a.front = 'S' <;> by_cases h2 : a.front = 'M' <;>
    by_cases h3 : a.front = 'L' <;> simp [returnLocker, h1, h2, h3]

lemma returnLocker_queues2 (st : LockerService) (a : String) :
    (returnLocker st a).queues2 =
      if a.front == 'L' then st.queues2 ++ [a] else st.queues2 := by
  by_cases h1 : a.front = 'S' <;> by_cases h2 : a.front = 'M' <;>
    by_cases h3 : a.front = 'L' <;> simp [returnLocker, h1, h2, h3]

lemma cleanupLoop_activeTickets (now : Int) (l : List (String × Ticket))
    (st : LockerService) :
    (cleanupLoop now l st).2.2.activeTickets = st.activeTickets := by
  induction l generalizing st with
  | nil => rfl
  | cons p rest ih =>
    cases hE : expired now p <;> simp only [cleanupLoop, hE] <;>
      simp [ih, returnLocker_activeTickets]

lemma cleanupLoop_kept (now : Int) (l : List (String × Ticket))
    (st : LockerService) :
    (cleanupLoop now l st).2.1 = l.filter (fun p => !(expired now p)) := by
  induction l generalizing st with
  | nil => rfl
  | cons p rest ih =>
    cases hE : expired now p <;> simp only [cleanupLoop, hE, List.filter_cons] <;>
      simp [ih]

lemma cleanupLoop_reclaimed (now : Int) (l : List (String × Ticket))
    (st : LockerService) :
    (cleanupLoop now l st).1 = (l.filter (expired now)).map (fun p => p.2.lockerId) := by
  induction l generalizing st with
  | nil => rfl
  | cons p rest ih =>
    cases hE : expired now p <;> simp only [cleanupLoop, hE, List.filter_cons] <;>
      simp [ih]

lemma cleanupLoop_queues (now : Int) (l : List (String × Ticket))
    (st : LockerService) :
    (cleanupLoop now l st).2.2.queues0
        = st.queues0 ++ (cleanupLoop now l st).1.filter (fun a => a.front == 'S')
      ∧ (cleanupLoop now l st).2.2.queues1
        = st.queues1 ++ (cleanupLoop now l st).1.filter (fun a => a.front == 'M')
      ∧ (cleanupLoop now l st).2.2.queues2
        = st.queues2 ++ (cleanupLoop now l st).1.filter (fun a => a.front == 'L') := by
  induction l generalizing st with
  | nil => simp [cleanupLoop]
  | cons p rest ih =>
    cases hE : expired now p
    · simp only [cleanupLoop, hE]
      simpa using ih st
    · simp only [cleanupLoop, hE, if_true, List.filter_cons]
      obtain ⟨ih0, ih1, ih2⟩ := ih (returnLocker st p.2.lockerId)
      refine ⟨?_, ?_, ?_⟩
      · rw [ih0, returnLocker_queues0]
        cases hS : (p.2.lockerId.front == 'S') <;> simp [hS, List.append_assoc]
      · rw [ih1, returnLocker_queues1]
        cases hS : (p.2.lockerId.front == 'M') <;> simp [hS, List.append_assoc]
      · rw [ih2, returnLocker_queues2]
        cases hS : (p.2.lockerId.front == 'L') <;> simp [hS, List.append_assoc]

/-- A list whose members all carry a legal front character is partitioned by
the three front-character filters, up to permutation. -/
lemma filter3_perm {l : List String}
    (h : ∀ x ∈ l, x.front = 'S' ∨ x.front = 'M' ∨ x.front = 'L') :
    (↑(l.filter (fun a => a.front == 'S')) : Multiset String)
      + ↑(l.filter (fun a => a.front == 'M'))
      + ↑(l.filter (fun a => a.front == 'L')) = ↑l := by
  induction l with
  | nil => simp
  | cons x xs ih =>
    have ihx := ih (fun y hy => h y (List.mem_cons_of_mem _ hy))
    rcases h x (List.mem_cons_self _ _) with hx | hx | hx
    · rw [List.filter_cons_of_pos (by rw [hx]; rfl),
        List.filter_cons_of_neg (by rw [hx]; exact (by decide)),
        List.filter_cons_of_neg (by rw [hx]; exact (by decide)),
        ← Multiset.cons_coe, ← Multiset.cons_coe, ← Multiset.singleton_add,
        ← Multiset.singleton_add, ← ihx]
      abel
    · rw [List.filter_cons_of_neg (by rw [hx]; exact (by decide)),
        List.filter_cons_of_pos (by rw [hx]; rfl),
        List.filter_cons_of_neg (by rw [hx]; exact (by decide)),
        ← Multiset.cons_coe, ← Multiset.cons_coe, ← Multiset.singleton_add,
        ← Multiset.singleton_add, ← ihx]
      abel
    · rw [List.filter_cons_of_neg (by rw [hx]; exact (by decide)),
        List.filter_cons_of_neg (by rw [hx]; exact (by decide)),
        List.filter_cons_of_pos (by rw [hx]; rfl),
        ← Multiset.cons_coe, ← Multiset.cons_coe, ← Multiset.singleton_add,
        ← Multiset.singleton_add, ← ihx]
      abel

lemma map_filter_perm (l : List (String × Ticket))
    (pred : String × Ticket → Bool) (f : String × Ticket → String) :
    (↑((l.filter pred).map f) : Multiset String)
      + ↑((l.filter (fun x => !pred x)).map f) = ↑(l.map f) := by
  rw [Multiset.coe_add, ← List.map_append]
  exact Multiset.coe_eq_coe.mpr (List.Perm.map f (List.filter_append_perm pred l))

lemma inv_cleanup (st : LockerService) (now : Int) (hInv : Inv st) :
    Inv (cleanup st now).2 := by
  obtain ⟨hq0, hq1, hq2⟩ := cleanupLoop_queues now st.activeTickets st
  have hkept := cleanupLoop_kept now st.activeTickets st
  have hrec := cleanupLoop_reclaimed now st.activeTickets st
  rw [hrec] at hq0 hq1 hq2
  have hfronts : ∀ x ∈ (st.activeTickets.filter (expired now)).map
      (fun p => p.2.lockerId), x.front = 'S' ∨ x.front = 'M' ∨ x.front = 'L' := by
    intro x hx
    obtain ⟨p, hp, rfl⟩ := List.mem_map.mp hx
    exact inventory_front _ (mem_inventory_of_ticket hInv (List.mem_filter.mp hp).1)
  simp only [cleanup]
  refine ⟨?_, ?_, ?_, ?_, ?_⟩
  · rw [lockerMultiset, queuesM_set_tickets, ticketLockers_set_tickets,
      queuesM, hq0, hq1, hq2, hkept]
    simp only [← Multiset.coe_add]
    have h3 := filter3_perm hfronts
    have h4 := map_filter_perm st.activeTickets (expired now) (fun p => p.2.lockerId)
    have h5 := hInv.1
    rw [lockerMultiset, queuesM, ticketLockers] at h5
    rw [← h5, ← h4, ← h3]
    abel
  · intro q hq
    have hq' : q ∈ st.activeTickets.filter (fun p => !(expired now p)) := by
      rw [← hkept]; exact hq
    exact hInv.2.1 q (List.mem_filter.mp hq').1
  · intro x hx
    have hx' : x ∈ st.queues0 ++ ((st.activeTickets.filter (expired now)).map
        (fun p => p.2.lockerId)).filter (fun a => a.front == 'S') := by
      rw [← hq0]; exact hx
    rcases List.mem_append.mp hx' with h | h
    · exact hInv.2.2.1 x h
    · exact beq_iff_eq.mp (List.mem_filter.mp h).2
  · intro x hx
    have hx' : x ∈ st.queues1 ++ ((st.activeTickets.filter (expired now)).map
        (fun p => p.2.lockerId)).filter (fun a => a.front == 'M') := by
      rw [← hq1]; exact hx
    rcases List.mem_append.mp hx' with h | h
    · exact hInv.2.2.2.1 x h
    · exact beq_iff_eq.mp (List.mem_filter.mp h).2
  · intro x hx
    have hx' : x ∈ st.queues2 ++ ((st.activeTickets.filter (expired now)).map
        (fun p => p.2.lockerId)).filter (fun a => a.front == 'L') := by
      rw [← hq2]; exact hx
    rcases List.mem_append.mp hx' with h | h
    · exact hInv.2.2.2.2 x h
    · exact beq_iff_eq.mp (List.mem_filter.mp h).2

/-- Every public operation preserves the invariant. -/
lemma inv_step {st st' : LockerService} (h : Step st st') (hInv : Inv st) :
    Inv st' := by
  cases h with
  | deposit s now => exact inv_deposit st s now hInv
  | pickup code => exact inv_pickup st code hInv
  | cleanup now => exact inv_cleanup st now hInv

/-- Every reachable state satisfies the invariant. -/
lemma inv_reachable {st : LockerService} (h : Reachable st) : Inv st := by
  induction h with
  | refl => exact inv_init
  | tail _ hstep ih => exact inv_step hstep ih

/-- Shape of a successful `deposit` when the freshly minted code collides
with no existing key. -/
lemma deposit_some {st st' : LockerService} {s : Size} {a : String} {now : Int}
    (hfb : findBestFit st s = (some a, st'))
    (hfresh : ∀ p ∈ st'.activeTickets,
      p.1 ≠ a ++ "-" ++ toString (Int.tmod now 10000)) :
    deposit st s now =
      (.ok ⟨a, a ++ "-" ++ toString (Int.tmod now 10000), now⟩,
        { st' with activeTickets :=
            (a ++ "-" ++ toString (Int.tmod now 10000),
              Ticket.mk a (a ++ "-" ++ toString (Int.tmod now 10000)) now)
            :: st'.activeTickets }) := by
  simp only [deposit, hfb]
  rw [insertTicket_of_fresh hfresh]

/-- Shape of a successful `pickup` whose code keys the head entry. -/
lemma pickup_head (st : LockerService) (c : String) (t : Ticket)
    (m : List (String × Ticket)) (hm : st.activeTickets = (c, t) :: m) :
    pickup st c = (.ok ("Locker " ++ t.lockerId ++ " opened. Package retrieved."),
      returnLocker { st with activeTickets := m } t.lockerId) := by
  unfold pickup
  rw [hm, List.find?_cons_of_pos _ (by simp), List.eraseP_cons_of_pos (by simp)]

/-- Field-wise equality of service states. -/
lemma LockerService.eq_of_fields {a b : LockerService} (h0 : a.queues0 = b.queues0)
    (h1 : a.queues1 = b.queues1) (h2 : a.queues2 = b.queues2)
    (h3 : a.activeTickets = b.activeTickets) : a = b := by
  cases a
  cases b
  simp_all

/-! ## The claims -/

/-- Claim C1: conservation invariant — in every state reachable from the
seeded service by any sequence of deposit / pickup / sweep operations,
whatever their outcomes, the multiset union of the lockers free in the three
pools and the lockers referenced by active tickets equals the fixed initial
inventory. -/
theorem C1_conservation (st : LockerService) (h : Reachable st) :
    lockerMultiset st = ↑inventory :=
  (inv_reachable h).1

theorem C1_conservation_witness :
    lockerMultiset initService = ↑inventory :=
  C1_conservation initService Relation.ReflTransGen.refl

/-- Claim C2: best-fit-upward — when the SMALL pool is empty and the MEDIUM
pool is non-empty, `deposit SMALL` succeeds with the MEDIUM pool's front
locker and the LARGE pool is left untouched. -/
theorem C2_best_fit_upward (st : LockerService) (now : Int) (a : String)
    (r : List String) (h0 : st.queues0 = []) (h1 : st.queues1 = a :: r) :
    ∃ t st', deposit st Size.SMALL now = (.ok t, st')
      ∧ t.lockerId = a ∧ st'.queues1 = r ∧ st'.queues2 = st.queues2 := by
  have hfb : findBestFit st Size.SMALL = (some a, { st with queues1 := r }) := by
    simp [findBestFit, h0, h1]
  unfold deposit
  rw [hfb]
  exact ⟨_, _, rfl, rfl, rfl, rfl⟩

theorem C2_best_fit_upward_witness :
    (LockerService.mk [] ["M-0"] ["L-0"] []).queues0 = []
    ∧ (LockerService.mk [] ["M-0"] ["L-0"] []).queues1 = "M-0" :: []
    ∧ ∃ t st', deposit (LockerService.mk [] ["M-0"] ["L-0"] []) Size.SMALL 5
          = (.ok t, st')
        ∧ t.lockerId = "M-0" ∧ st'.queues1 = []
        ∧ st'.queues2 = (LockerService.mk [] ["M-0"] ["L-0"] []).queues2 :=
  ⟨rfl, rfl, C2_best_fit_upward _ 5 "M-0" [] rfl rfl⟩

/-- Claim C3: no downward fallback, and failure atomicity — when the
requested class's pool and all strictly larger pools are empty, `deposit`
fails with `NoCapacity` naming the requested class and returns the state
unchanged; in particular `deposit LARGE` fails like this however full the
SMALL and MEDIUM pools are. -/
theorem C3_no_downward_fallback (st : LockerService) (now : Int) :
    (st.queues2 = [] →
      deposit st Size.LARGE now = (.error (.NoCapacity Size.LARGE), st))
    ∧ (st.queues1 = [] → st.queues2 = [] →
      deposit st Size.MEDIUM now = (.error (.NoCapacity Size.MEDIUM), st))
    ∧ (st.queues0 = [] → st.queues1 = [] → st.queues2 = [] →
      deposit st Size.SMALL now = (.error (.NoCapacity Size.SMALL), st)) := by
  refine ⟨?_, ?_, ?_⟩
  · intro h2
    have hfb : findBestFit st Size.LARGE = (none, st) := by
      simp [findBestFit, h2]
    unfold deposit
    rw [hfb]
  · intro h1 h2
    have hfb : findBestFit st Size.MEDIUM = (none, st) := by
      simp [findBestFit, h1, h2]
    unfold deposit
    rw [hfb]
  · intro h0 h1 h2
    have hfb : findBestFit st Size.SMALL = (none, st) := by
      simp [findBestFit, h0, h1, h2]
    unfold deposit
    rw [hfb]

theorem C3_no_downward_fallback_witness :
    (LockerService.mk ["S-0"] ["M-0"] [] []).queues2 = []
    ∧ deposit (LockerService.mk ["S-0"] ["M-0"] [] []) Size.LARGE 42
        = (.error (.NoCapacity Size.LARGE), LockerService.mk ["S-0"] ["M-0"] [] []) :=
  ⟨rfl, (C3_no_downward_fallback (LockerService.mk ["S-0"] ["M-0"] [] []) 42).1 rfl⟩

/-- Claim C5: invalid code rejected atomically — for any state and any code
that is not a key of the active-ticket table, `pickup` fails with
`InvalidCode` carrying that code, issues no confirmation, and returns the
state unchanged. -/
theorem C5_invalid_code (st : LockerService) (code : String)
    (h : ∀ p ∈ st.activeTickets, p.1 ≠ code) :
    pickup st code = (.error (.InvalidCode code), st) := by
  have hf : st.activeTickets.find? (fun p => p.1 == code) = none :=
    List.find?_eq_none.mpr (fun p hp hc => h p hp (beq_iff_eq.mp hc))
  unfold pickup
  rw [hf]

theorem C5_invalid_code_witness :
    (∀ p ∈ initService.activeTickets, p.1 ≠ "S-0-1000")
    ∧ pickup initService "S-0-1000"
        = (.error (.InvalidCode "S-0-1000"), initService) :=
  ⟨by simp [initService], C5_invalid_code initService "S-0-1000" (by simp [initService])⟩

/-- Claim C6: expiry boundary — a sweep at instant `now` removes exactly the
tickets with `now - creationTime` strictly above the three-day threshold,
emits exactly their lockers, appends each reclaimed locker to the pool
matching its front character, and an entry is untouched at
`creation + retention - 1` and reclaimed at `creation + retention + 1`. -/
theorem C6_expiry_boundary (st : LockerService) (now : Int) :
    ((cleanup st now).2.activeTickets
        = st.activeTickets.filter (fun p => !(expired now p)))
    ∧ ((cleanup st now).1
        = (st.activeTickets.filter (expired now)).map (fun p => p.2.lockerId))
    ∧ ((cleanup st now).2.queues0
        = st.queues0 ++ (cleanup st now).1.filter (fun a => a.front == 'S'))
    ∧ ((cleanup st now).2.queues1
        = st.queues1 ++ (cleanup st now).1.filter (fun a => a.front == 'M'))
    ∧ ((cleanup st now).2.queues2
        = st.queues2 ++ (cleanup st now).1.filter (fun a => a.front == 'L'))
    ∧ (∀ p : String × Ticket,
        expired (p.2.creationTime + threeDaysInMillis - 1) p = false
        ∧ expired (p.2.creationTime + threeDaysInMillis + 1) p = true) := by
  obtain ⟨hq0, hq1, hq2⟩ := cleanupLoop_queues now st.activeTickets st
  refine ⟨cleanupLoop_kept now st.activeTickets st,
    cleanupLoop_reclaimed now st.activeTickets st, hq0, hq1, hq2, ?_⟩
  intro p
  constructor
  · simp only [expired, threeDaysInMillis, decide_eq_false_iff_not]
    omega
  · simp only [expired, threeDaysInMillis, decide_eq_true_eq]
    omega

/-- Claim C7: idempotent sweep — immediately sweeping again at the same
instant, with no operation in between, reclaims nothing and leaves the state
exactly as the first sweep left it. -/
theorem C7_idempotent_sweep (st : LockerService) (now : Int) :
    cleanup (cleanup st now).2 now = ([], (cleanup st now).2) := by
  have hT : (cleanup st now).2.activeTickets
      = st.activeTickets.filter (fun p => !(expired now p)) :=
    cleanupLoop_kept now st.activeTickets st
  set st2 := (cleanup st now).2 with hst2
  have hnone : st2.activeTickets.filter (expired now) = [] := by
    rw [hT, List.filter_filter]
    refine List.filter_eq_nil_iff.mpr ?_
    intro p hp
    simp
  have hrec2 : (cleanupLoop now st2.activeTickets st2).1 = [] := by
    rw [cleanupLoop_reclaimed, hnone]
    rfl
  have hkept2 : (cleanupLoop now st2.activeTickets st2).2.1 = st2.activeTickets := by
    rw [cleanupLoop_kept]
    refine List.filter_eq_self.mpr ?_
    intro p hp
    rw [hT] at hp
    exact (List.mem_filter.mp hp).2
  obtain ⟨h0, h1, h2⟩ := cleanupLoop_queues now st2.activeTickets st2
  have hpost : (cleanup st2 now).2 = st2 := by
    apply LockerService.eq_of_fields
    · show (cleanupLoop now st2.activeTickets st2).2.2.queues0 = st2.queues0
      rw [h0, hrec2]
      simp
    · show (cleanupLoop now st2.activeTickets st2).2.2.queues1 = st2.queues1
      rw [h1, hrec2]
      simp
    · show (cleanupLoop now st2.activeTickets st2).2.2.queues2 = st2.queues2
      rw [h2, hrec2]
      simp
    · exact hkept2
  have hfst : (cleanup st2 now).1 = [] := hrec2
  calc cleanup st2 now = ((cleanup st2 now).1, (cleanup st2 now).2) := rfl
    _ = ([], st2) := by rw [hfst, hpost]

/-- Claim C9: sweep result — the sweep hands back exactly the lockers of the
tickets it reclaimed in that run (in table order), and the list is empty when
nothing exceeded the threshold, e.g. on the freshly seeded service. -/
theorem C9_sweep_result (st : LockerService) (now : Int) :
    ((cleanup st now).1
      = (st.activeTickets.filter (expired now)).map (fun p => p.2.lockerId))
    ∧ (st.activeTickets.filter (expired now) = [] → (cleanup st now).1 = [])
    ∧ (cleanup initService now).1 = [] := by
  refine ⟨cleanupLoop_reclaimed now st.activeTickets st, ?_, rfl⟩
  intro hempty
  rw [show (cleanup st now).1
      = (st.activeTickets.filter (expired now)).map (fun p => p.2.lockerId)
    from cleanupLoop_reclaimed now st.activeTickets st, hempty]
  rfl

/-- Claim C4: round-trip — in an invariant state with a free locker in some
candidate pool for the requested class, `deposit` then immediately `pickup`
with the issued ticket's code succeeds, the locker lands back in the pool of
its own size class, and the resulting state carries the same per-pool
multisets of free lockers and the same active-ticket table as before. -/
theorem C4_round_trip (st : LockerService) (hInv : Inv st) (s : Size) (now : Int)
    (a : String) (st' : LockerService) (hfb : findBestFit st s = (some a, st')) :
    ∃ t st1 msg st2,
      deposit st s now = (.ok t, st1)
      ∧ pickup st1 t.code = (.ok msg, st2)
      ∧ (↑st2.queues0 : Multiset String) = ↑st.queues0
      ∧ (↑st2.queues1 : Multiset String) = ↑st.queues1
      ∧ (↑st2.queues2 : Multiset String) = ↑st.queues2
      ∧ st2.activeTickets = st.activeTickets := by
  obtain ⟨ht, hqm, hmem, hs0, hs1, hs2⟩ := findBestFit_some_spec hfb
  have haInv := mem_inventory_of_queues hInv hmem
  have hnott : a ∉ ticketLockers st := fun hm => not_queue_and_ticket hInv hmem hm
  have hfresh0 := code_fresh hInv haInv hnott (Int.tmod now 10000)
  have hfresh : ∀ p ∈ st'.activeTickets,
      p.1 ≠ a ++ "-" ++ toString (Int.tmod now 10000) := by
    rw [ht]; exact hfresh0
  have hdep := deposit_some hfb hfresh
  have hm : ({ st' with activeTickets :=
        (a ++ "-" ++ toString (Int.tmod now 10000),
          Ticket.mk a (a ++ "-" ++ toString (Int.tmod now 10000)) now)
        :: st'.activeTickets } : LockerService).activeTickets
      = (a ++ "-" ++ toString (Int.tmod now 10000),
          Ticket.mk a (a ++ "-" ++ toString (Int.tmod now 10000)) now)
        :: st.activeTickets := by
    show (a ++ "-" ++ toString (Int.tmod now 10000),
        Ticket.mk a (a ++ "-" ++ toString (Int.tmod now 10000)) now)
        :: st'.activeTickets = _
    rw [ht]
  have hpick := pickup_head _ _ _ _ hm
  refine ⟨_, _, _, _, hdep, hpick, ?_, ?_, ?_, ?_⟩
  · rcases findBestFit_some_cases hfb with ⟨h0, h1, h2, _⟩ | ⟨h1, h0, h2, _⟩ | ⟨h2, h0, h1, _⟩
    · have hfr : a.front = 'S' :=
        hInv.2.2.1 a (by rw [h0]; exact List.mem_cons_self _ _)
      rw [returnLocker_queues0, if_pos (by rw [hfr]; rfl)]
      show (↑(st'.queues0 ++ [a]) : Multiset String) = ↑st.queues0
      rw [coe_append_singleton, h0, ← Multiset.cons_coe, ← Multiset.singleton_add]
      abel
    · have hfr : a.front = 'M' :=
        hInv.2.2.2.1 a (by rw [h1]; exact List.mem_cons_self _ _)
      rw [returnLocker_queues0, if_neg (by rw [hfr]; simp)]
      show (↑st'.queues0 : Multiset String) = ↑st.queues0
      rw [h0]
    · have hfr : a.front = 'L' :=
        hInv.2.2.2.2 a (by rw [h2]; exact List.mem_cons_self _ _)
      rw [returnLocker_queues0, if_neg (by rw [hfr]; simp)]
      show (↑st'.queues0 : Multiset String) = ↑st.queues0
      rw [h0]
  · rcases findBestFit_some_cases hfb with ⟨h0, h1, h2, _⟩ | ⟨h1, h0, h2, _⟩ | ⟨h2, h0, h1, _⟩
    · have hfr : a.front = 'S' :=
        hInv.2.2.1 a (by rw [h0]; exact List.mem_cons_self _ _)
      rw [returnLocker_queues1, if_neg (by rw [hfr]; simp)]
      show (↑st'.queues1 : Multiset String) = ↑st.queues1
      rw [h1]
    · have hfr : a.front = 'M' :=
        hInv.2.2.2.1 a (by rw [h1]; exact List.mem_cons_self _ _)
      rw [returnLocker_queues1, if_pos (by rw [hfr]; rfl)]
      show (↑(st'.queues1 ++ [a]) : Multiset String) = ↑st.queues1
      rw [coe_append_singleton, h1, ← Multiset.cons_coe, ← Multiset.singleton_add]
      abel
    · have hfr : a.front = 'L' :=
        hInv.2.2.2.2 a (by rw [h2]; exact List.mem_cons_self _ _)
      rw [returnLocker_queues1, if_neg (by rw [hfr]; simp)]
      show (↑st'.queues1 : Multiset String) = ↑st.queues1
      rw [h1]
  · rcases findBestFit_some_cases hfb with ⟨h0, h1, h2, _⟩ | ⟨h1, h0, h2, _⟩ | ⟨h2, h0, h1, _⟩
    · have hfr : a.front = 'S' :=
        hInv.2.2.1 a (by rw [h0]; exact List.mem_cons_self _ _)
      rw [returnLocker_queues2, if_neg (by rw [hfr]; simp)]
      show (↑st'.queues2 : Multiset String) = ↑st.queues2
      rw [h2]
    · have hfr : a.front = 'M' :=
        hInv.2.2.2.1 a (by rw [h1]; exact List.mem_cons_self _ _)
      rw [returnLocker_queues2, if_neg (by rw [hfr]; simp)]
      show (↑st'.queues2 : Multiset String) = ↑st.queues2
      rw [h2]
    · have hfr : a.front = 'L' :=
        hInv.2.2.2.2 a (by rw [h2]; exact List.mem_cons_self _ _)
      rw [returnLocker_queues2, if_pos (by rw [hfr]; rfl)]
      show (↑(st'.queues2 ++ [a]) : Multiset String) = ↑st.queues2
      rw [coe_append_singleton, h2, ← Multiset.cons_coe, ← Multiset.singleton_add]
      abel
  · rw [returnLocker_activeTickets]

theorem C4_round_trip_witness :
    Inv initService
    ∧ findBestFit initService Size.SMALL
        = (some "S-0", { initService with queues0 :=
            ["S-1", "S-2", "S-3", "S-4", "S-5", "S-6", "S-7", "S-8", "S-9"] })
    ∧ ∃ t st1 msg st2,
        deposit initService Size.SMALL 7 = (.ok t, st1)
        ∧ pickup st1 t.code = (.ok msg, st2)
        ∧ (↑st2.queues0 : Multiset String) = ↑initService.queues0
        ∧ (↑st2.queues1 : Multiset String) = ↑initService.queues1
        ∧ (↑st2.queues2 : Multiset String) = ↑initService.queues2
        ∧ st2.activeTickets = initService.activeTickets :=
  ⟨inv_init, rfl, C4_round_trip initService inv_init Size.SMALL 7 "S-0" _ rfl⟩

/-- Claim C8: FIFO discipline — a successful allocation pops the front
(oldest entry) of the first non-empty candidate pool, returns append to the
tail of the pool named by the locker's front character, and in the seeded
two-SMALL-locker scenario, depositing both lockers, picking up "S-0" and
depositing again hands out "S-0" once more. -/
theorem C8_fifo (st : LockerService) (a : String) (r : List String) :
    (st.queues0 = a :: r →
      findBestFit st Size.SMALL = (some a, { st with queues0 := r }))
    ∧ (st.queues0 = [] → st.queues1 = a :: r →
      findBestFit st Size.SMALL = (some a, { st with queues1 := r }))
    ∧ (st.queues0 = [] → st.queues1 = [] → st.queues2 = a :: r →
      findBestFit st Size.SMALL = (some a, { st with queues2 := r }))
    ∧ (st.queues1 = a :: r →
      findBestFit st Size.MEDIUM = (some a, { st with queues1 := r }))
    ∧ (st.queues1 = [] → st.queues2 = a :: r →
      findBestFit st Size.MEDIUM = (some a, { st with queues2 := r }))
    ∧ (st.queues2 = a :: r →
      findBestFit st Size.LARGE = (some a, { st with queues2 := r }))
    ∧ (a.front = 'S' → returnLocker st a = { st with queues0 := st.queues0 ++ [a] })
    ∧ (a.front = 'M' → returnLocker st a = { st with queues1 := st.queues1 ++ [a] })
    ∧ (a.front = 'L' → returnLocker st a = { st with queues2 := st.queues2 ++ [a] })
    ∧ (deposit (pickup (deposit (deposit
          (LockerService.mk ["S-0", "S-1"] [] [] [])
          Size.SMALL 1000).2 Size.SMALL 1000).2 "S-0-1000").2 Size.SMALL 1000).1
        = .ok ⟨"S-0", "S-0-1000", 1000⟩ := by
  refine ⟨?_, ?_, ?_, ?_, ?_, ?_,
    returnLocker_of_front_S st a, returnLocker_of_front_M st a,
    returnLocker_of_front_L st a, rfl⟩
  · intro h0
    simp [findBestFit, h0]
  · intro h0 h1
    simp [findBestFit, h0, h1]
  · intro h0 h1 h2
    simp [findBestFit, h0, h1, h2]
  · intro h1
    simp [findBestFit, h1]
  · intro h1 h2
    simp [findBestFit, h1, h2]
  · intro h2
    simp [findBestFit, h2]

theorem C8_fifo_witness :
    (LockerService.mk ["S-0", "S-1"] [] [] []).queues0 = "S-0" :: ["S-1"]
    ∧ findBestFit (LockerService.mk ["S-0", "S-1"] [] [] []) Size.SMALL
        = (some "S-0",
          { LockerService.mk ["S-0", "S-1"] [] [] [] with queues0 := ["S-1"] }) :=
  ⟨rfl, (C8_fifo (LockerService.mk ["S-0", "S-1"] [] [] []) "S-0" ["S-1"]).1 rfl⟩

/-- Codes of well-formed, equal-length-locker entries inherit distinctness
from the locker ids they embed. -/
lemma nodup_codes_of_wf {l : List (String × Ticket)}
    (hwf : ∀ p ∈ l, ∃ n : Int, p.2.code = p.2.lockerId ++ "-" ++ toString n)
    (hlen : ∀ p ∈ l, p.2.lockerId.data.length = 3)
    (hl : (l.map (fun p => p.2.lockerId)).Nodup) :
    (l.map (fun p => p.2.code)).Nodup := by
  induction l with
  | nil => simp
  | cons p rest ih =>
    simp only [List.map_cons, List.nodup_cons] at hl ⊢
    refine ⟨?_, ih (fun q hq => hwf q (List.mem_cons_of_mem _ hq))
      (fun q hq => hlen q (List.mem_cons_of_mem _ hq)) hl.2⟩
    intro hc
    obtain ⟨q, hq, hqc⟩ := List.mem_map.mp hc
    obtain ⟨n, hpcode⟩ := hwf p (List.mem_cons_self _ _)
    obtain ⟨m, hqcode⟩ := hwf q (List.mem_cons_of_mem _ hq)
    have hlq : q.2.lockerId = p.2.lockerId := by
      apply code_eq_locker_eq
        (by rw [hlen q (List.mem_cons_of_mem _ hq), hlen p (List.mem_cons_self _ _)])
      rw [← hqcode, ← hpcode]
      exact hqc
    exact hl.1 (hlq ▸ List.mem_map_of_mem (fun z => z.2.lockerId) hq)

/-- Claim C10: implicit code-uniqueness invariant — in every reachable state
the retrieval codes of the active tickets are pairwise distinct (each code
embeds its locker id, lockers are referenced by at most one ticket), so a
successful deposit always grows the active-ticket table by one entry instead
of overwriting an existing one. -/
theorem C10_code_uniqueness (st : LockerService) (h : Reachable st) :
    (st.activeTickets.map (fun p => p.2.code)).Nodup
    ∧ ∀ (s : Size) (now : Int) (t : Ticket) (st' : LockerService),
        deposit st s now = (.ok t, st') →
        st'.activeTickets.length = st.activeTickets.length + 1 := by
  have hInv := inv_reachable h
  constructor
  · have hle : (↑(ticketLockers st) : Multiset String) ≤ lockerMultiset st := by
      rw [lockerMultiset]
      exact Multiset.le_add_left _ _
    have hnd : (↑(ticketLockers st) : Multiset String).Nodup :=
      Multiset.nodup_of_le (hInv.1 ▸ hle) (Multiset.coe_nodup.mpr inventory_nodup)
    exact nodup_codes_of_wf
      (fun q hq => (hInv.2.1 q hq).2)
      (fun q hq => inventory_data_length _ (mem_inventory_of_ticket hInv hq))
      (Multiset.coe_nodup.mp hnd)
  · intro s now t st' hdep
    rcases hfb : findBestFit st s with ⟨ores, stf⟩
    cases ores with
    | none =>
      simp only [deposit, hfb] at hdep
      exact absurd hdep (by simp)
    | some a =>
      obtain ⟨ht, hqm, hmem, _, _, _⟩ := findBestFit_some_spec hfb
      have haInv := mem_inventory_of_queues hInv hmem
      have hnott : a ∉ ticketLockers st := fun hm =>
        not_queue_and_ticket hInv hmem hm
      have hfresh : ∀ p ∈ stf.activeTickets,
          p.1 ≠ a ++ "-" ++ toString (Int.tmod now 10000) := by
        rw [ht]
        exact code_fresh hInv haInv hnott (Int.tmod now 10000)
      rw [deposit_some hfb hfresh] at hdep
      injection hdep with h1 h2
      subst h2
      simp [ht]

theorem C10_code_uniqueness_witness :
    (initService.activeTickets.map (fun p => p.2.code)).Nodup
    ∧ ∀ (s : Size) (now : Int) (t : Ticket) (st' : LockerService),
        deposit initService s now = (.ok t, st') →
        st'.activeTickets.length = initService.activeTickets.length + 1 :=
  C10_code_uniqueness initService Relation.ReflTransGen.refl

theorem C6_expiry_boundary_witness :
    ((cleanup initService 0).2.activeTickets
        = initService.activeTickets.filter (fun p => !(expired 0 p)))
    ∧ ((cleanup initService 0).1
        = (initService.activeTickets.filter (expired 0)).map (fun p => p.2.lockerId))
    ∧ ((cleanup initService 0).2.queues0
        = initService.queues0 ++ (cleanup initService 0).1.filter
            (fun a => a.front == 'S'))
    ∧ ((cleanup initService 0).2.queues1
        = initService.queues1 ++ (cleanup initService 0).1.filter
            (fun a => a.front == 'M'))
    ∧ ((cleanup initService 0).2.queues2
        = initService.queues2 ++ (cleanup initService 0).1.filter
            (fun a => a.front == 'L'))
    ∧ (∀ p : String × Ticket,
        expired (p.2.creationTime + threeDaysInMillis - 1) p = false
        ∧ expired (p.2.creationTime + threeDaysInMillis + 1) p = true) :=
  C6_expiry_boundary initService 0

theorem C7_idempotent_sweep_witness :
    cleanup (cleanup initService 0).2 0 = ([], (cleanup initService 0).2) :=
  C7_idempotent_sweep initService 0

theorem C9_sweep_result_witness :
    ((cleanup initService 0).1
      = (initService.activeTickets.filter (expired 0)).map (fun p => p.2.lockerId))
    ∧ (initService.activeTickets.filter (expired 0) = []
        → (cleanup initService 0).1 = [])
    ∧ (cleanup initService 0).1 = [] :=
  C9_sweep_result initService 0

end AmazonLocker
